import Mathlib

/-!
# NoteApp: a shallow embedding of `app.go` and its specification claims

The Go program keeps its notes in one SQLite table

    notes (id TEXT PRIMARY KEY, title TEXT NOT NULL, content TEXT,
           created_at INTEGER, updated_at INTEGER)

and talks to it through five parameterised statements.  The embedding has three layers.

* The collaborators that live outside `app.go` (the SQL engine, `uuid`, `os`, `filepath`,
  the clock) are modelled just far enough for the five statements and the directory lookup:
  the table is the list of its rows in rowid order, and the random UUID and the clock reading
  are inputs of the call that consumes them.  A statement fails when the engine rejects what
  it is given: an INSERT that violates the primary key, and, for the statements that select,
  update or delete by id, a bound value or an updated row beyond SQLite's length limit.
  Faults of the machine (a closed connection, a full disk) are outside the model.
* `GetApplicationDataDir`, `CreateNote`, `GetNotes`, `GetNote`, `UpdateNote` and `DeleteNote`
  are transcribed branch by branch.  Go's `(value, error)` results are kept as pairs, so the
  zero value returned next to an error is visible.
* The theorems C1 .. C10 follow the definitions.
-/

namespace NoteApp

/-! ## Errors -/

/-- Errors produced below `database/sql`: the sentinel `sql.ErrNoRows`, a constraint
violation reported by the SQLite driver (extended result code and engine message), and the
result code `SQLITE_TOOBIG` (18) for a string or row beyond the length limit. -/
inductive SqlError where
  | ErrNoRows
  | constraint (code : Nat) (text : String)
  | tooBig
  deriving DecidableEq, Repr

/-- The `Error()` text of a database error. -/
def SqlError.Error : SqlError → String
  | .ErrNoRows => "sql: no rows in result set"
  | .constraint code text => "constraint failed: " ++ text ++ " (" ++ toString code ++ ")"
  | .tooBig => "string or blob too big (18)"

/-- A Go `error` value as `app.go` builds them: a plain message (`fmt.Errorf` without `%w`,
`errors.New`) or a message wrapping a database error (`fmt.Errorf` with `%w`). -/
inductive GoError where
  | errorString (msg : String)
  | wrapError (msg : String) (err : SqlError)
  deriving DecidableEq, Repr

/-- The `Error()` text of an application error. -/
def GoError.Error : GoError → String
  | .errorString msg => msg
  | .wrapError msg _ => msg

/-- The call `fmt.Errorf(pfx + "%w", err)`. -/
def Errorf_w (pfx : String) (err : SqlError) : GoError :=
  .wrapError (pfx ++ err.Error) err

/-! ## Data model -/

/-- The Go struct `Note`; the two timestamps are `int64` Unix seconds. -/
structure Note where
  ID : String
  Title : String
  Content : String
  CreatedAt : Int
  UpdatedAt : Int
  deriving DecidableEq, Repr

/-- The zero value `Note{}`. -/
def Note.zero : Note := { ID := "", Title := "", Content := "", CreatedAt := 0, UpdatedAt := 0 }

/-- One row of the table `notes`, columns in schema order. -/
structure Row where
  id : String
  title : String
  content : String
  created_at : Int
  updated_at : Int
  deriving DecidableEq, Repr

/-- The table `notes`: its rows in rowid order. -/
abbrev Table := List Row

/-- The constraint `id TEXT PRIMARY KEY` of the schema: no two rows share an id. -/
def PrimaryKey (t : Table) : Prop := (t.map Row.id).Nodup

instance (t : Table) : Decidable (PrimaryKey t) := by
  unfold PrimaryKey; infer_instance

/-- The compile-time limit `SQLITE_MAX_LENGTH` of SQLite: the largest number of bytes in a
string, and in the record that encodes a row. -/
def SQLITE_MAX_LENGTH : Nat := 1000000000

/-- The Go struct `App`, reduced to the table behind its connection `db`.  The engine stores
no string beyond its length limit; `bound` records this for the id column, the one column
whose values come back as bound values of later statements. -/
structure App where
  db : Table
  bound : ∀ r ∈ db, r.id.utf8ByteSize ≤ SQLITE_MAX_LENGTH

instance : DecidableEq App := fun a b =>
  decidable_of_iff (a.db = b.db) (by cases a; cases b; simp)

/-- The application right after `startup` on a fresh data directory: the table exists and is
empty. -/
def App.empty : App := { db := [], bound := by simp }

/-! ## The SQL engine, for the five statements of `app.go`

SQLite is a library outside the repository.  Each definition below gives the meaning of one
statement text that occurs in `app.go`, on the table declared by the `CREATE TABLE` statement
of `startup`. -/

/-- Statement `INSERT INTO notes (id, title, content, created_at, updated_at) VALUES (?,?,?,?,?)`:
rejected when the id is already present, otherwise the row gets the next rowid.
The result is the new table, the number of rows affected and the error of `Exec`.
The length limit is not modelled for this statement, so the model accepts every insert that
the engine accepts: what is proved of `CreateNote` assumes that the insert succeeded, is
about an id that is already stored, or holds of every store that can be reached. -/
def execInsert (t : Table) (r : Row) : Table × Nat × Option SqlError :=
  if t.any (fun x => x.id == r.id) then
    (t, 0, some (.constraint 1555 "UNIQUE constraint failed: notes.id"))
  else
    (t ++ [r], 1, none)

/-- The order of `ORDER BY updated_at DESC`: `a` may precede `b`. -/
def newerFirst (a b : Row) : Prop := b.updated_at ≤ a.updated_at

instance : DecidableRel newerFirst := fun a b => by
  unfold newerFirst; infer_instance

/-- Statement `SELECT id, title, content, created_at, updated_at FROM notes ORDER BY updated_at DESC`.
Rows with equal `updated_at` keep their rowid order; the theorems do not depend on that. -/
def queryAll (t : Table) : List Row × Option SqlError :=
  (t.insertionSort newerFirst, none)

/-- Binding a Go string to a `?` of a statement fails with `SQLITE_TOOBIG` when the string has
more than `SQLITE_MAX_LENGTH` bytes. -/
def tooBig (s : String) : Bool :=
  decide (SQLITE_MAX_LENGTH < s.utf8ByteSize)

/-- The number of bytes of SQLite's variable-length integer for `v` (`sqlite3VarintLen`). -/
def varintLen (v : Nat) : Nat :=
  if v < 2 ^ 7 then 1 else if v < 2 ^ 14 then 2 else if v < 2 ^ 21 then 3
  else if v < 2 ^ 28 then 4 else if v < 2 ^ 35 then 5 else if v < 2 ^ 42 then 6
  else if v < 2 ^ 49 then 7 else if v < 2 ^ 56 then 8 else 9

/-- The number of body bytes of an integer in a record: none for 0 and 1, otherwise
1, 2, 3, 4, 6 or 8 by magnitude. -/
def intSize (i : Int) : Nat :=
  let u : Int := if i < 0 then -i - 1 else i
  if u ≤ 127 then (if i = 0 ∨ i = 1 then 0 else 1)
  else if u ≤ 32767 then 2
  else if u ≤ 8388607 then 3
  else if u ≤ 2147483647 then 4
  else if u ≤ 140737488355327 then 6
  else 8

/-- The size in bytes of the record that encodes a row of `notes` (`OP_MakeRecord`): a header
with its own length and one serial type per column (`2 * n + 13` for a text of `n` bytes, one
byte for an integer), followed by the column values. -/
def recordSize (r : Row) : Nat :=
  let nHdr := varintLen (2 * r.id.utf8ByteSize + 13) + varintLen (2 * r.title.utf8ByteSize + 13)
    + varintLen (2 * r.content.utf8ByteSize + 13) + 1 + 1
  let nData := r.id.utf8ByteSize + r.title.utf8ByteSize + r.content.utf8ByteSize
    + intSize r.created_at + intSize r.updated_at
  let nHdr :=
    if nHdr ≤ 126 then nHdr + 1
    else if varintLen nHdr < varintLen (nHdr + varintLen nHdr) then nHdr + varintLen nHdr + 1
    else nHdr + varintLen nHdr
  nHdr + nData

/-- Statement `SELECT id, title, content, created_at, updated_at FROM notes WHERE id = ?`
as used by `QueryRow`: the first matching row, if any, and the error that `QueryRow` keeps
for `Scan` (binding an over-long id fails). -/
def queryRow (t : Table) (id : String) : Option Row × Option SqlError :=
  if tooBig id then (none, some .tooBig)
  else (t.find? (fun x => x.id == id), none)

/-- Statement `UPDATE notes SET title = ?, content = ?, updated_at = ? WHERE id = ?`:
the new table, the number of rows affected (every row the WHERE clause matches) and the
error of `Exec`.  The statement fails, and changes nothing, when a bound string is over-long
or when the new record of a matching row is. -/
def execUpdate (t : Table) (title content : String) (now : Int) (id : String) :
    Table × Nat × Option SqlError :=
  if tooBig title || tooBig content || tooBig id then (t, 0, some .tooBig)
  else if t.any (fun x => x.id == id && decide (SQLITE_MAX_LENGTH <
      recordSize { x with title := title, content := content, updated_at := now })) then
    (t, 0, some .tooBig)
  else
    (t.map (fun x => if x.id == id then
        { x with title := title, content := content, updated_at := now } else x),
     t.countP (fun x => x.id == id), none)

/-- Statement `DELETE FROM notes WHERE id = ?`: the new table, the number of rows affected and
the error of `Exec` (binding an over-long id fails). -/
def execDelete (t : Table) (id : String) : Table × Nat × Option SqlError :=
  if tooBig id then (t, 0, some .tooBig)
  else (t.filter (fun x => !(x.id == id)), t.countP (fun x => x.id == id), none)

/-- The method `Scan` on the result of `QueryRow`, or on the current row of a result set:
the error of the query if there is one, `sql.ErrNoRows` when there is no row, and otherwise
the five column values. -/
def Scan : Option Row × Option SqlError → Except SqlError Row
  | (_, some err) => .error err
  | (none, none) => .error .ErrNoRows
  | (some r, none) => .ok r

/-- The method `RowsAffected` of a statement result; SQLite always supports it. -/
def RowsAffected (n : Nat) : Nat × Option SqlError := (n, none)

/-! ## UUIDs

The package `github.com/google/uuid` is outside the repository; `CreateNote` uses the value of
`uuid.New()` only through its canonical text form. -/

/-- A value of `uuid.UUID`: sixteen bytes. -/
structure UUID where
  bytes : List (Fin 256)
  size : bytes.length = 16

/-- A lower-case hexadecimal digit. -/
def hexDigit (n : Nat) : Char :=
  "0123456789abcdef".toList.getD n '0'

/-- Two hexadecimal digits per byte. -/
def encodeHex (bs : List (Fin 256)) : List Char :=
  bs.flatMap (fun b => [hexDigit (b.val / 16), hexDigit (b.val % 16)])

/-- The method `String` of `uuid.UUID`: the form `xxxxxxxx-xxxx-xxxx-xxxx-xxxxxxxxxxxx`. -/
def UUID.String (u : UUID) : String :=
  String.mk (encodeHex (u.bytes.take 4) ++ '-' :: encodeHex ((u.bytes.drop 4).take 2)
    ++ '-' :: encodeHex ((u.bytes.drop 6).take 2) ++ '-' :: encodeHex ((u.bytes.drop 8).take 2)
    ++ '-' :: encodeHex (u.bytes.drop 10))

/-! ## The operating system, for `GetApplicationDataDir` -/

/-- What `GetApplicationDataDir` reads from its platform: `runtime.GOOS`, the process
environment, the result of `os.UserHomeDir()` and the function `filepath.Join`. -/
structure Platform where
  GOOS : String
  environ : String → Option String
  UserHomeDir : String × Option GoError
  Join : List String → String

/-- The call `os.Getenv(key)`: the value, or the empty string when the variable is unset. -/
def Platform.Getenv (p : Platform) (key : String) : String :=
  (p.environ key).getD ""

/-- GetApplicationDataDir returns the application data directory for the current OS. -/
def GetApplicationDataDir (p : Platform) (appName : String) : String × Option GoError :=
  if p.GOOS = "windows" then
    let dir := p.Getenv "APPDATA"
    if dir = "" then
      ("", some (.errorString "APPDATA environment variable not set"))
    else
      (p.Join [dir, appName], none)
  else if p.GOOS = "darwin" then
    match p.UserHomeDir with
    | (_, some err) => ("", some err)
    | (home, none) =>
      let dir := p.Join [home, "Library", "Application Support"]
      (p.Join [dir, appName], none)
  else if p.GOOS = "linux" then
    let dir := p.Getenv "XDG_DATA_HOME"
    if dir = "" then
      match p.UserHomeDir with
      | (_, some err) => ("", some err)
      | (home, none) =>
        let dir := p.Join [home, ".local", "share"]
        (p.Join [dir, appName], none)
    else
      (p.Join [dir, appName], none)
  else
    match p.UserHomeDir with
    | (_, some err) => ("", some err)
    | (home, none) =>
      let dir := home
      (p.Join [dir, appName], none)

/-! ## The five repository operations -/

/-- CreateNote creates a new note in the database.  `u` is the value of `uuid.New()` and `now`
the value of `time.Now().Unix()` read by this call. -/
def App.CreateNote (a : App) (u : UUID) (now : Int) (title content : String) :
    App × Note × Option GoError :=
  let id := u.String
  let note : Note :=
    { ID := id, Title := title, Content := content, CreatedAt := now, UpdatedAt := now }
  let res := execInsert a.db
      { id := note.ID, title := note.Title, content := note.Content,
        created_at := note.CreatedAt, updated_at := note.UpdatedAt }
  let a1 : App :=
    { db := res.1
      -- the only id this statement can add is the text of a UUID: 36 characters
      bound := by
        have h4 : ∀ l : List Char, String.utf8Len l ≤ 4 * l.length := by
          intro l
          induction l with
          | nil => simp
          | cons c l ih =>
            have := c.utf8Size_le_four
            simp only [String.utf8Len_cons, List.length_cons]
            omega
        have h2 : ∀ l : List (Fin 256), (encodeHex l).length = 2 * l.length := by
          intro l
          induction l with
          | nil => rfl
          | cons b l ih =>
            simp only [encodeHex, List.flatMap_cons, List.length_append, List.length_cons,
              List.length_nil] at ih ⊢
            omega
        have hu : u.String.utf8ByteSize ≤ SQLITE_MAX_LENGTH := by
          have := h4 u.String.data
          simp only [UUID.String, List.length_append, List.length_cons, h2, List.length_take,
            List.length_drop, u.size] at this
          simp only [String.utf8ByteSize, String.utf8ByteSize.go_eq, SQLITE_MAX_LENGTH]
          simp only [UUID.String]
          omega
        intro r hr
        simp only [res, execInsert] at hr
        split at hr
        · exact a.bound r hr
        · rcases List.mem_append.mp hr with h | h
          · exact a.bound r h
          · rw [List.mem_singleton.mp h]
            exact hu }
  match res.2.2 with
  | some err => (a1, Note.zero, some (Errorf_w "failed to create note: " err))
  | none => (a1, note, none)

/-- The loop `for rows.Next()` of `GetNotes`: scan each row and append it to `notes`. -/
def scanLoop : List Row → List Note → List Note × Option GoError
  | [], notes => (notes, none)
  | r :: rows, notes =>
    match Scan (some r, none) with
    | .error err => ([], some (Errorf_w "failed to scan note: " err))
    | .ok c =>
      let note : Note := { Note.zero with ID := c.id, Title := c.title, Content := c.content }
      let note := { note with CreatedAt := c.created_at }
      let note := { note with UpdatedAt := c.updated_at }
      scanLoop rows (notes ++ [note])

/-- GetNotes retrieves all notes from the database. -/
def App.GetNotes (a : App) : List Note × Option GoError :=
  match queryAll a.db with
  | (_, some err) => ([], some (Errorf_w "failed to get notes: " err))
  | (rows, none) => scanLoop rows []

/-- GetNote retrieves a single note by ID from the database. -/
def App.GetNote (a : App) (id : String) : Note × Option GoError :=
  match Scan (queryRow a.db id) with
  | .error err =>
    if err = .ErrNoRows then
      (Note.zero, some (.errorString ("note with ID " ++ id ++ " not found")))
    else
      (Note.zero, some (Errorf_w "failed to get note: " err))
  | .ok c =>
    let note : Note := { Note.zero with ID := c.id, Title := c.title, Content := c.content }
    let note := { note with CreatedAt := c.created_at }
    let note := { note with UpdatedAt := c.updated_at }
    (note, none)

/-- UpdateNote updates an existing note in the database.  `now` is the value of
`time.Now().Unix()` read by this call. -/
def App.UpdateNote (a : App) (now : Int) (id title content : String) :
    App × Note × Option GoError :=
  let res := execUpdate a.db title content now id
  let a1 : App :=
    { db := res.1
      -- the statement leaves the id of every row as it was
      bound := by
        intro r hr
        simp only [res, execUpdate] at hr
        split at hr
        · exact a.bound r hr
        · split at hr
          · exact a.bound r hr
          · obtain ⟨x, hx, rfl⟩ := List.mem_map.mp hr
            have := a.bound x hx
            split <;> exact this }
  match res.2.2 with
  | some err => (a1, Note.zero, some (Errorf_w "failed to update note: " err))
  | none =>
    match RowsAffected res.2.1 with
    | (_, some err) => (a1, Note.zero, some (Errorf_w "failed to check rows affected: " err))
    | (rowsAffected, none) =>
      if rowsAffected = 0 then
        (a1, Note.zero, some (.errorString ("note with ID " ++ id ++ " not found for update")))
      else
        (a1, a1.GetNote id)

/-- DeleteNote deletes a note from the database. -/
def App.DeleteNote (a : App) (id : String) : App × Option GoError :=
  let res := execDelete a.db id
  let a1 : App :=
    { db := res.1
      -- the statement only removes rows
      bound := by
        intro r hr
        simp only [res, execDelete] at hr
        split at hr
        · exact a.bound r hr
        · exact a.bound r (List.mem_filter.mp hr).1 }
  match res.2.2 with
  | some err => (a1, some (Errorf_w "failed to delete note: " err))
  | none =>
    match RowsAffected res.2.1 with
    | (_, some err) => (a1, some (Errorf_w "failed to check rows affected: " err))
    | (rowsAffected, none) =>
      if rowsAffected = 0 then
        (a1, some (.errorString ("note with ID " ++ id ++ " not found for deletion")))
      else
        (a1, none)

/-! ## Sequences of calls -/

/-- One mutating call of the host layer, together with what the call reads from its
environment (the fresh UUID and the clock). -/
inductive Call where
  | create (u : UUID) (now : Int) (title content : String)
  | update (now : Int) (id title content : String)
  | delete (id : String)

/-- Run one call: the application afterwards and the error it returned. -/
def Call.run (a : App) : Call → App × Option GoError
  | .create u now title content =>
    let r := a.CreateNote u now title content
    (r.1, r.2.2)
  | .update now id title content =>
    let r := a.UpdateNote now id title content
    (r.1, r.2.2)
  | .delete id => a.DeleteNote id

/-- The application after a sequence of calls, first call first. -/
def runCalls (a : App) : List Call → App
  | [] => a
  | c :: cs => runCalls (c.run a).1 cs

/-- Every call of the sequence returns a nil error. -/
def allSucceed (a : App) : List Call → Bool
  | [] => true
  | c :: cs => (c.run a).2.isNone && allSucceed (c.run a).1 cs

/-- The clock readings of a sequence of calls, in call order (`DeleteNote` reads no clock). -/
def clockReadings : List Call → List Int
  | [] => []
  | .create _ now _ _ :: cs => now :: clockReadings cs
  | .update now _ _ _ :: cs => now :: clockReadings cs
  | .delete _ :: cs => clockReadings cs

/-! ## The specification's view of the store

Section 3 of the specification describes the notes as a set of records keyed by id:
a note is created with `createdAt = updatedAt = now`, an update overwrites title, content
and `updatedAt`, and a delete removes the record. -/

/-- The specification's store: the live note of each id. -/
abbrev SpecStore := String → Option Note

/-- The effect of one successful call on the specification's store. -/
def SpecStore.apply (m : SpecStore) : Call → SpecStore
  | .create u now title content =>
    Function.update m u.String
      (some { ID := u.String, Title := title, Content := content,
              CreatedAt := now, UpdatedAt := now })
  | .update now id title content =>
    match m id with
    | none => m
    | some n => Function.update m id
        (some { n with Title := title, Content := content, UpdatedAt := now })
  | .delete id => Function.update m id none

/-- The specification's store after a sequence of successful calls on the empty store. -/
def specStore (cs : List Call) : SpecStore :=
  cs.foldl SpecStore.apply (fun _ => none)

/-- The note that `Scan` builds from a row. -/
def Row.toNote (r : Row) : Note :=
  { ID := r.id, Title := r.title, Content := r.content,
    CreatedAt := r.created_at, UpdatedAt := r.updated_at }

/-- The message of the error `GetNote` returns for an unknown id. -/
def notFound (id : String) : GoError :=
  .errorString ("note with ID " ++ id ++ " not found")

/-- The message of the error `UpdateNote` returns for an unknown id. -/
def notFoundForUpdate (id : String) : GoError :=
  .errorString ("note with ID " ++ id ++ " not found for update")

/-- The message of the error `DeleteNote` returns for an unknown id. -/
def notFoundForDeletion (id : String) : GoError :=
  .errorString ("note with ID " ++ id ++ " not found for deletion")

/-- The table holds exactly the live notes of the specification's store, each under its id. -/
def Refines (a : App) (m : SpecStore) : Prop :=
  ∀ id n, m id = some n ↔ ∃ r ∈ a.db, r.id = id ∧ r.toNote = n

instance : IsTotal Row newerFirst := ⟨fun a b => le_total b.updated_at a.updated_at⟩

instance : IsTrans Row newerFirst := ⟨fun _ _ _ h1 h2 => le_trans h2 h1⟩

/-- The first row of `t` with the given id: what `SELECT ... WHERE id = ?` yields. -/
def lookup (t : Table) (id : String) : Option Row :=
  t.find? (fun x => x.id == id)

/-- The table `t` after `UPDATE ... WHERE id = ?` has rewritten the rows with the given id. -/
def updated (t : Table) (title content : String) (now : Int) (id : String) : Table :=
  t.map (fun x => if x.id == id then
    { x with title := title, content := content, updated_at := now } else x)

/-- The table `t` after `DELETE ... WHERE id = ?` has removed the rows with the given id. -/
def deleted (t : Table) (id : String) : Table :=
  t.filter (fun x => !(x.id == id))

/-! ## Sample inputs -/

/-- A UUID whose last byte is `k` and whose other bytes are zero. -/
def sampleUUID (k : Fin 256) : UUID :=
  { bytes := List.replicate 15 0 ++ [k], size := by simp }

/-- The id that `sampleUUID 1` renders to. -/
def sampleId : String := "00000000-0000-0000-0000-000000000001"

/-- The store after `CreateNote("Old", "old text")` on the empty store, with the UUID
`sampleUUID 1` and the clock at second 100. -/
def sampleApp : App :=
  { db := [{ id := sampleId, title := "Old", content := "old text",
             created_at := 100, updated_at := 100 }]
    bound := by decide }

/-- A second UUID-shaped id. -/
def sampleId2 : String := "00000000-0000-0000-0000-000000000002"

/-- The sample store after a second `CreateNote`, at second 120. -/
def sampleApp2 : App :=
  { db := sampleApp.db ++ [{ id := sampleId2, title := "Second", content := "",
                             created_at := 120, updated_at := 120 }]
    bound := by decide }

/-- A text of 1,000,000,001 bytes, one more than SQLite accepts. -/
def bigText : String :=
  String.mk (List.replicate 1000000001 'x')

/-- A Linux platform with home directory `/home/u` and no `XDG_DATA_HOME`; `Join` glues
the non-empty elements with a slash, which is what `filepath.Join` does on clean elements. -/
def sampleLinux : Platform :=
  { GOOS := "linux"
    environ := fun _ => none
    UserHomeDir := ("/home/u", none)
    Join := fun parts => "/".intercalate (parts.filter (fun e => e ≠ "")) }

/-! ## Engine lemmas -/

theorem App.ext_db {a b : App} (h : a.db = b.db) : a = b := by
  cases a; cases b
  simp only at h
  subst h
  rfl

theorem tooBig_eq_false {s : String} (h : s.utf8ByteSize ≤ SQLITE_MAX_LENGTH) :
    tooBig s = false := by
  simp [tooBig, h]

theorem tooBig_stored {a : App} {r : Row} (hr : r ∈ a.db) : tooBig r.id = false :=
  tooBig_eq_false (a.bound r hr)

theorem utf8ByteSize_replicate (n : Nat) (c : Char) :
    (String.mk (List.replicate n c)).utf8ByteSize = n * c.utf8Size := by
  rw [String.utf8ByteSize_mk]
  induction n with
  | zero => simp
  | succ n ih => rw [List.replicate_succ, String.utf8Len_cons, ih]; ring

theorem tooBig_bigText : tooBig bigText = true := by
  unfold tooBig bigText
  rw [utf8ByteSize_replicate]
  decide

theorem parts_le_recordSize (r : Row) :
    r.id.utf8ByteSize ≤ recordSize r ∧ r.title.utf8ByteSize ≤ recordSize r ∧
      r.content.utf8ByteSize ≤ recordSize r := by
  simp only [recordSize]
  refine ⟨?_, ?_, ?_⟩ <;> omega

theorem any_id_false {t : Table} {id : String} (h : ∀ r ∈ t, r.id ≠ id) :
    t.any (fun x => x.id == id) = false := by
  rw [List.any_eq_false]
  intro r hr
  simpa using h r hr

theorem any_id_true {t : Table} {id : String} (h : ∃ r ∈ t, r.id = id) :
    t.any (fun x => x.id == id) = true := by
  rw [List.any_eq_true]
  obtain ⟨r, hr, e⟩ := h
  exact ⟨r, hr, by simpa using e⟩

theorem countP_id_zero {t : Table} {id : String} (h : ∀ r ∈ t, r.id ≠ id) :
    t.countP (fun x => x.id == id) = 0 := by
  rw [List.countP_eq_zero]
  intro r hr
  simpa using h r hr

theorem countP_id_pos {t : Table} {id : String} (h : ∃ r ∈ t, r.id = id) :
    t.countP (fun x => x.id == id) ≠ 0 := by
  obtain ⟨r, hr, e⟩ := h
  have : 0 < t.countP (fun x => x.id == id) :=
    List.countP_pos_iff.mpr ⟨r, hr, by simpa using e⟩
  omega

theorem lookup_none {t : Table} {id : String} (h : ∀ r ∈ t, r.id ≠ id) :
    lookup t id = none := by
  unfold lookup
  rw [List.find?_eq_none]
  intro r hr
  simpa using h r hr

theorem lookup_isSome {t : Table} {id : String} (h : ∃ r ∈ t, r.id = id) :
    ∃ r, lookup t id = some r := by
  cases e : lookup t id with
  | some r => exact ⟨r, rfl⟩
  | none =>
    obtain ⟨x, hx, hxi⟩ := h
    have := List.find?_eq_none.mp e x hx
    simp [hxi] at this

theorem lookup_append_fresh {t : Table} {r : Row} (h : ∀ x ∈ t, x.id ≠ r.id) :
    lookup (t ++ [r]) r.id = some r := by
  unfold lookup
  rw [List.find?_append, List.find?_eq_none.mpr (by intro x hx; simpa using h x hx)]
  simp

theorem queryRow_of_bound {id : String} (hid : tooBig id = false) (t : Table) :
    queryRow t id = (lookup t id, none) := by
  simp [queryRow, hid, lookup]

theorem scanLoop_eq (rows : List Row) (acc : List Note) :
    scanLoop rows acc = (acc ++ rows.map Row.toNote, none) := by
  induction rows generalizing acc with
  | nil => simp [scanLoop]
  | cons r rows ih => simp [scanLoop, Scan, ih, Row.toNote, Note.zero]

theorem GetNotes_eq (a : App) :
    a.GetNotes = ((a.db.insertionSort newerFirst).map Row.toNote, none) := by
  simp [App.GetNotes, queryAll, scanLoop_eq]

theorem GetNote_of_none {a : App} {id : String} (hid : tooBig id = false)
    (h : lookup a.db id = none) : a.GetNote id = (Note.zero, some (notFound id)) := by
  simp [App.GetNote, queryRow_of_bound hid, h, Scan, notFound]

theorem GetNote_of_some {a : App} {id : String} {r : Row} (hid : tooBig id = false)
    (h : lookup a.db id = some r) : a.GetNote id = (r.toNote, none) := by
  simp [App.GetNote, queryRow_of_bound hid, h, Scan, Row.toNote, Note.zero]

theorem GetNote_congr {a b : App} {j : String} (h : lookup a.db j = lookup b.db j) :
    a.GetNote j = b.GetNote j := by
  unfold lookup at h
  simp only [App.GetNote, queryRow, h]

theorem CreateNote_fresh {a : App} {u : UUID} (h : ∀ r ∈ a.db, r.id ≠ u.String)
    (now : Int) (title content : String) :
    (a.CreateNote u now title content).1.db =
        a.db ++ [{ id := u.String, title := title, content := content,
                   created_at := now, updated_at := now }] ∧
      (a.CreateNote u now title content).2 =
        ({ ID := u.String, Title := title, Content := content,
           CreatedAt := now, UpdatedAt := now }, none) := by
  simp [App.CreateNote, execInsert, any_id_false h]

theorem CreateNote_taken {a : App} {u : UUID} (h : ∃ r ∈ a.db, r.id = u.String)
    (now : Int) (title content : String) :
    a.CreateNote u now title content =
      (a, Note.zero, some (Errorf_w "failed to create note: "
        (.constraint 1555 "UNIQUE constraint failed: notes.id"))) := by
  have e : (a.CreateNote u now title content).1 = a :=
    App.ext_db (by simp [App.CreateNote, execInsert, any_id_true h])
  have e2 : (a.CreateNote u now title content).2 = (Note.zero, some (Errorf_w
      "failed to create note: " (.constraint 1555 "UNIQUE constraint failed: notes.id"))) := by
    simp [App.CreateNote, execInsert, any_id_true h]
  exact Prod.ext e e2

theorem CreateNote_ok_iff (a : App) (u : UUID) (now : Int) (title content : String) :
    (a.CreateNote u now title content).2.2 = none ↔ ∀ r ∈ a.db, r.id ≠ u.String := by
  by_cases h : ∃ r ∈ a.db, r.id = u.String
  · rw [CreateNote_taken h]
    simp only [reduceCtorEq, false_iff]
    obtain ⟨r, hr, e⟩ := h
    exact fun hh => hh r hr e
  · have h2 : ∀ r ∈ a.db, r.id ≠ u.String := fun r hr e => h ⟨r, hr, e⟩
    rw [(CreateNote_fresh h2 now title content).2]
    simpa using h2

theorem CreateNote_db (a : App) (u : UUID) (now : Int) (title content : String) :
    (a.CreateNote u now title content).1.db = a.db ∨
      ((∀ r ∈ a.db, r.id ≠ u.String) ∧
        (a.CreateNote u now title content).1.db =
          a.db ++ [{ id := u.String, title := title, content := content,
                     created_at := now, updated_at := now }]) := by
  by_cases h : ∃ r ∈ a.db, r.id = u.String
  · left; rw [CreateNote_taken h]
  · have h2 : ∀ r ∈ a.db, r.id ≠ u.String := fun r hr e => h ⟨r, hr, e⟩
    right; exact ⟨h2, (CreateNote_fresh h2 now title content).1⟩

theorem UUID_String_length (u : UUID) : u.String.length = 36 := by
  obtain ⟨bs, hbs⟩ := u
  have enc : ∀ l : List (Fin 256), (encodeHex l).length = 2 * l.length := by
    intro l
    induction l with
    | nil => rfl
    | cons b l ih =>
      simp only [encodeHex, List.flatMap_cons, List.length_append, List.length_cons,
        List.length_nil] at ih ⊢
      omega
  simp only [UUID.String, String.length, List.length_append, List.length_cons, enc,
    List.length_take, List.length_drop, hbs]
  omega

theorem UUID_String_ne_empty (u : UUID) : u.String ≠ "" := by
  intro h
  have := UUID_String_length u
  rw [h] at this
  simp at this

/-! ### The rewritten and the remaining rows -/

theorem updated_absent {t : Table} {id : String} (h : ∀ r ∈ t, r.id ≠ id)
    (title content : String) (now : Int) : updated t title content now id = t := by
  unfold updated
  conv_rhs => rw [← List.map_id t]
  apply List.map_congr_left
  intro r hr
  simp [h r hr]

theorem updated_ids (t : Table) (title content : String) (now : Int) (id : String) :
    (updated t title content now id).map Row.id = t.map Row.id := by
  rw [updated, List.map_map]
  apply List.map_congr_left
  intro r _
  by_cases e : r.id = id <;> simp [e]

theorem updated_mem {t : Table} {title content : String} {now : Int} {id : String} {r : Row}
    (h : r ∈ updated t title content now id) :
    ∃ x ∈ t, (x.id ≠ id ∧ r = x) ∨
      (x.id = id ∧ r = { x with title := title, content := content, updated_at := now }) := by
  rw [updated, List.mem_map] at h
  obtain ⟨x, hx, e⟩ := h
  refine ⟨x, hx, ?_⟩
  by_cases c : x.id = id
  · right; subst c; simp at e; exact ⟨rfl, e.symm⟩
  · left; simp [c] at e; exact ⟨c, e.symm⟩

theorem mem_updated_of_mem {t : Table} {x : Row} (hx : x ∈ t) (title content : String)
    (now : Int) (id : String) :
    (if x.id == id then { x with title := title, content := content, updated_at := now }
      else x) ∈ updated t title content now id := by
  rw [updated]
  exact List.mem_map.mpr ⟨x, hx, rfl⟩

theorem lookup_updated_same (t : Table) (title content : String) (now : Int) (id : String) :
    lookup (updated t title content now id) id =
      (lookup t id).map
        (fun x => { x with title := title, content := content, updated_at := now }) := by
  induction t with
  | nil => rfl
  | cons r t ih =>
    rw [updated] at ih
    by_cases c : r.id = id
    · simp [lookup, updated, c]
    · simpa [lookup, updated, c] using ih

theorem lookup_updated_other (t : Table) (title content : String) (now : Int)
    {id j : String} (hj : j ≠ id) :
    lookup (updated t title content now id) j = lookup t j := by
  induction t with
  | nil => rfl
  | cons r t ih =>
    rw [updated] at ih
    by_cases c : r.id = id
    · have cj : ¬ r.id = j := fun e => hj (e.symm.trans c)
      have cj2 : ¬ id = j := fun e => hj e.symm
      simpa [lookup, updated, c, cj, cj2] using ih
    · by_cases d : r.id = j
      · subst d
        simp [lookup, updated, c]
      · simpa [lookup, updated, c, d] using ih

theorem updated_others (t : Table) (title content : String) (now : Int) (id : String) :
    (updated t title content now id).filter (fun r => !(r.id == id)) =
      t.filter (fun r => !(r.id == id)) := by
  induction t with
  | nil => rfl
  | cons r t ih =>
    rw [updated] at ih
    by_cases c : r.id = id
    · subst c
      simpa [updated] using ih
    · simpa [updated, c] using ih

theorem deleted_absent {t : Table} {id : String} (h : ∀ r ∈ t, r.id ≠ id) :
    deleted t id = t := by
  rw [deleted, List.filter_eq_self]
  intro r hr
  simp [h r hr]

theorem mem_deleted {t : Table} {id : String} {r : Row} :
    r ∈ deleted t id ↔ r ∈ t ∧ r.id ≠ id := by
  simp [deleted, List.mem_filter]

theorem lookup_deleted_same (t : Table) (id : String) :
    lookup (deleted t id) id = none :=
  lookup_none (fun _ hr => (mem_deleted.mp hr).2)

theorem lookup_deleted_other (t : Table) {id j : String} (hj : j ≠ id) :
    lookup (deleted t id) j = lookup t j := by
  induction t with
  | nil => rfl
  | cons r t ih =>
    rw [deleted] at ih
    by_cases c : r.id = id
    · have cj : ¬ r.id = j := fun e => hj (e.symm.trans c)
      have cj2 : ¬ id = j := fun e => hj e.symm
      simpa [lookup, deleted, c, cj, cj2] using ih
    · by_cases d : r.id = j
      · subst d
        simp [lookup, deleted, c]
      · simpa [lookup, deleted, c, d] using ih

theorem deleted_others (t : Table) (id : String) :
    (deleted t id).filter (fun r => !(r.id == id)) = t.filter (fun r => !(r.id == id)) := by
  rw [deleted, List.filter_filter]
  simp

theorem length_deleted (t : Table) (id : String) :
    (deleted t id).length + t.countP (fun x => x.id == id) = t.length := by
  induction t with
  | nil => rfl
  | cons r t ih =>
    rw [deleted] at ih
    by_cases c : r.id = id
    · simp [deleted, c]; omega
    · simp [deleted, c]; omega

theorem countP_id_of_primaryKey {t : Table} (hpk : PrimaryKey t) {id : String}
    (h : ∃ r ∈ t, r.id = id) : t.countP (fun x => x.id == id) = 1 := by
  induction t with
  | nil => simp at h
  | cons r t ih =>
    have hnd : r.id ∉ t.map Row.id ∧ (t.map Row.id).Nodup := by
      simpa [PrimaryKey] using hpk
    by_cases c : r.id = id
    · have h0 : t.countP (fun x => x.id == id) = 0 := by
        apply countP_id_zero
        intro x hx e
        exact hnd.1 (List.mem_map.mpr ⟨x, hx, e.trans c.symm⟩)
      simp [List.countP_cons, c, h0]
    · have h1 : ∃ x ∈ t, x.id = id := by
        obtain ⟨x, hx, e⟩ := h
        rcases List.mem_cons.mp hx with rfl | hx
        · exact absurd e c
        · exact ⟨x, hx, e⟩
      simp [List.countP_cons, c, ih hnd.2 h1]

theorem PrimaryKey_unique {t : Table} (hpk : PrimaryKey t) {x y : Row} (hx : x ∈ t) (hy : y ∈ t)
    (e : x.id = y.id) : x = y :=
  List.inj_on_of_nodup_map hpk hx hy e

theorem lookup_of_primaryKey {t : Table} (hpk : PrimaryKey t) {p : Row} (hp : p ∈ t) :
    lookup t p.id = some p := by
  induction t with
  | nil => simp at hp
  | cons r t ih =>
    have hnd : r.id ∉ t.map Row.id ∧ (t.map Row.id).Nodup := by
      simpa [PrimaryKey] using hpk
    rcases List.mem_cons.mp hp with rfl | hp
    · simp [lookup]
    · have c : ¬ r.id = p.id := fun e => hnd.1 (List.mem_map.mpr ⟨p, hp, e.symm⟩)
      have := ih hnd.2 hp
      simpa [lookup, c] using this

/-! ### The three statements that bind an id -/

theorem execUpdate_cases (t : Table) (title content : String) (now : Int) (id : String) :
    execUpdate t title content now id = (t, 0, some .tooBig) ∨
      (tooBig id = false ∧
        execUpdate t title content now id =
          (updated t title content now id, t.countP (fun x => x.id == id), none)) := by
  unfold execUpdate
  split
  · left; rfl
  · rename_i h
    split
    · left; rfl
    · right
      refine ⟨?_, rfl⟩
      cases e : tooBig id with
      | false => rfl
      | true => simp [e] at h

theorem execUpdate_ok (t : Table) (now : Int) {title content id : String}
    (ht : tooBig title = false) (hc : tooBig content = false) (hid : tooBig id = false)
    (hrow : ∀ x ∈ t, x.id = id →
      recordSize { x with title := title, content := content, updated_at := now }
        ≤ SQLITE_MAX_LENGTH) :
    execUpdate t title content now id =
      (updated t title content now id, t.countP (fun x => x.id == id), none) := by
  have hany : t.any (fun x => x.id == id && decide (SQLITE_MAX_LENGTH <
      recordSize { x with title := title, content := content, updated_at := now })) = false := by
    rw [List.any_eq_false]
    intro x hx
    by_cases c : x.id = id
    · subst c
      have := hrow x hx rfl
      simp [Nat.not_lt.mpr this]
    · simp [c]
  simp [execUpdate, ht, hc, hid, hany, updated]

theorem execUpdate_tooBig {title content id : String}
    (h : tooBig title = true ∨ tooBig content = true ∨ tooBig id = true) (t : Table)
    (now : Int) : execUpdate t title content now id = (t, 0, some .tooBig) := by
  have : (tooBig title || tooBig content || tooBig id) = true := by
    rcases h with h | h | h <;> simp [h]
  simp [execUpdate, this]

theorem execUpdate_fst_ids (t : Table) (title content : String) (now : Int) (id : String) :
    (execUpdate t title content now id).1.map Row.id = t.map Row.id := by
  rcases execUpdate_cases t title content now id with e | ⟨_, e⟩
  · rw [e]
  · rw [e]; exact updated_ids t title content now id

theorem execDelete_ok {id : String} (hid : tooBig id = false) (t : Table) :
    execDelete t id = (deleted t id, t.countP (fun x => x.id == id), none) := by
  simp [execDelete, hid, deleted]

theorem execDelete_tooBig {id : String} (hid : tooBig id = true) (t : Table) :
    execDelete t id = (t, 0, some .tooBig) := by
  simp [execDelete, hid]

theorem execDelete_cases (t : Table) (id : String) :
    execDelete t id = (t, 0, some .tooBig) ∨
      (tooBig id = false ∧
        execDelete t id = (deleted t id, t.countP (fun x => x.id == id), none)) := by
  cases e : tooBig id with
  | true => left; exact execDelete_tooBig e t
  | false => right; exact ⟨rfl, execDelete_ok e t⟩

theorem UpdateNote_db (a : App) (now : Int) (id title content : String) :
    (a.UpdateNote now id title content).1.db = (execUpdate a.db title content now id).1 := by
  unfold App.UpdateNote
  simp only
  split
  · rfl
  · split
    · rfl
    · split <;> rfl

theorem DeleteNote_db (a : App) (id : String) :
    (a.DeleteNote id).1.db = (execDelete a.db id).1 := by
  unfold App.DeleteNote
  simp only
  split
  · rfl
  · split
    · rfl
    · split <;> rfl

theorem UpdateNote_of_error {a : App} {now : Int} {id title content : String}
    (h : execUpdate a.db title content now id = (a.db, 0, some .tooBig)) :
    a.UpdateNote now id title content =
      (a, Note.zero, some (Errorf_w "failed to update note: " .tooBig)) := by
  have e1 : (a.UpdateNote now id title content).1 = a :=
    App.ext_db (by rw [UpdateNote_db, h])
  have e2 : (a.UpdateNote now id title content).2 =
      (Note.zero, some (Errorf_w "failed to update note: " .tooBig)) := by
    simp [App.UpdateNote, h]
  exact Prod.ext e1 e2

theorem UpdateNote_of_ok {a : App} {now : Int} {id title content : String}
    (hid : tooBig id = false)
    (h : execUpdate a.db title content now id =
      (updated a.db title content now id, a.db.countP (fun x => x.id == id), none)) :
    (a.UpdateNote now id title content).2 =
      if a.db.countP (fun x => x.id == id) = 0 then
        (Note.zero, some (notFoundForUpdate id))
      else
        match lookup (updated a.db title content now id) id with
        | none => (Note.zero, some (notFound id))
        | some r => (r.toNote, none) := by
  by_cases c : a.db.countP (fun x => x.id == id) = 0
  · simp [App.UpdateNote, h, RowsAffected, c, notFoundForUpdate]
  · cases e : lookup (updated a.db title content now id) id with
    | none =>
      have := GetNote_of_none (a := (a.UpdateNote now id title content).1) hid
        (by rw [UpdateNote_db, h]; exact e)
      simp only [c, if_false]
      rw [← this]
      simp [App.UpdateNote, h, RowsAffected, c]
    | some r =>
      have := GetNote_of_some (a := (a.UpdateNote now id title content).1) hid
        (by rw [UpdateNote_db, h]; exact e)
      simp only [c, if_false]
      rw [← this]
      simp [App.UpdateNote, h, RowsAffected, c]

theorem UpdateNote_absent {a : App} {id : String} (h : ∀ r ∈ a.db, r.id ≠ id)
    (now : Int) {title content : String} (ht : tooBig title = false)
    (hc : tooBig content = false) (hid : tooBig id = false) :
    a.UpdateNote now id title content = (a, Note.zero, some (notFoundForUpdate id)) := by
  have hok := execUpdate_ok a.db now ht hc hid
    (fun x hx e => absurd e (h x hx))
  have e1 : (a.UpdateNote now id title content).1 = a :=
    App.ext_db (by rw [UpdateNote_db, hok]; exact updated_absent h title content now)
  have e2 := UpdateNote_of_ok hid hok
  rw [if_pos (countP_id_zero h)] at e2
  exact Prod.ext e1 e2

theorem UpdateNote_unknown_db {a : App} {id : String} (h : ∀ r ∈ a.db, r.id ≠ id)
    (now : Int) (title content : String) : (a.UpdateNote now id title content).1 = a := by
  apply App.ext_db
  rw [UpdateNote_db]
  rcases execUpdate_cases a.db title content now id with e | ⟨_, e⟩
  · rw [e]
  · rw [e]; exact updated_absent h title content now

theorem UpdateNote_ok (a : App) (now : Int) (id title content : String)
    (h : (a.UpdateNote now id title content).2.2 = none) :
    (∃ r ∈ a.db, r.id = id) ∧
      (a.UpdateNote now id title content).1.db = updated a.db title content now id := by
  rcases execUpdate_cases a.db title content now id with e | ⟨hid, e⟩
  · rw [UpdateNote_of_error e] at h
    simp at h
  · have e2 := UpdateNote_of_ok hid e
    by_cases c : ∃ r ∈ a.db, r.id = id
    · exact ⟨c, by rw [UpdateNote_db, e]⟩
    · have h2 : ∀ r ∈ a.db, r.id ≠ id := fun r hr e => c ⟨r, hr, e⟩
      rw [if_pos (countP_id_zero h2)] at e2
      rw [e2] at h
      simp at h

theorem DeleteNote_absent {a : App} {id : String} (h : ∀ r ∈ a.db, r.id ≠ id)
    (hid : tooBig id = false) : a.DeleteNote id = (a, some (notFoundForDeletion id)) := by
  have hok := execDelete_ok hid a.db
  have e1 : (a.DeleteNote id).1 = a :=
    App.ext_db (by rw [DeleteNote_db, hok]; exact deleted_absent h)
  have e2 : (a.DeleteNote id).2 = some (notFoundForDeletion id) := by
    simp [App.DeleteNote, hok, RowsAffected, countP_id_zero h, notFoundForDeletion]
  exact Prod.ext e1 e2

theorem DeleteNote_unknown_db {a : App} {id : String} (h : ∀ r ∈ a.db, r.id ≠ id) :
    (a.DeleteNote id).1 = a := by
  apply App.ext_db
  rw [DeleteNote_db]
  rcases execDelete_cases a.db id with e | ⟨_, e⟩
  · rw [e]
  · rw [e]; exact deleted_absent h

theorem DeleteNote_present {a : App} {id : String} (h : ∃ r ∈ a.db, r.id = id) :
    (a.DeleteNote id).1.db = deleted a.db id ∧ (a.DeleteNote id).2 = none := by
  have hid : tooBig id = false := by
    obtain ⟨r, hr, rfl⟩ := h
    exact tooBig_stored hr
  have hok := execDelete_ok hid a.db
  refine ⟨by rw [DeleteNote_db, hok], ?_⟩
  simp [App.DeleteNote, hok, RowsAffected, countP_id_pos h]

theorem DeleteNote_ok_iff (a : App) (id : String) :
    (a.DeleteNote id).2 = none ↔ ∃ r ∈ a.db, r.id = id := by
  constructor
  · intro h
    by_contra c
    have h2 : ∀ r ∈ a.db, r.id ≠ id := fun r hr e => c ⟨r, hr, e⟩
    rcases execDelete_cases a.db id with e | ⟨hid, _⟩
    · simp [App.DeleteNote, e] at h
    · rw [DeleteNote_absent h2 hid] at h
      simp at h
  · intro h
    exact (DeleteNote_present h).2

/-! ## The primary key is an invariant -/

theorem PrimaryKey_append_fresh {t : Table} {r : Row} (hpk : PrimaryKey t)
    (h : ∀ x ∈ t, x.id ≠ r.id) : PrimaryKey (t ++ [r]) := by
  unfold PrimaryKey at hpk ⊢
  rw [List.map_append, List.nodup_append]
  refine ⟨hpk, List.nodup_singleton _, ?_⟩
  intro s hs hs2
  obtain ⟨x, hx, rfl⟩ := List.mem_map.mp hs
  simp only [List.map_cons, List.map_nil, List.mem_singleton] at hs2
  exact h x hx hs2

theorem PrimaryKey_execDelete {t : Table} (hpk : PrimaryKey t) (id : String) :
    PrimaryKey (execDelete t id).1 := by
  rcases execDelete_cases t id with e | ⟨_, e⟩
  · rw [e]; exact hpk
  · rw [e]
    unfold PrimaryKey at hpk ⊢
    exact hpk.sublist ((List.filter_sublist t).map Row.id)

theorem PrimaryKey_step {a : App} (hpk : PrimaryKey a.db) (c : Call) :
    PrimaryKey (c.run a).1.db := by
  cases c with
  | create u now title content =>
    rcases CreateNote_db a u now title content with e | ⟨hf, e⟩
    · simpa only [Call.run, e] using hpk
    · simp only [Call.run, e]
      exact PrimaryKey_append_fresh hpk hf
  | update now id title content =>
    simp only [Call.run, UpdateNote_db]
    unfold PrimaryKey
    rw [execUpdate_fst_ids]
    exact hpk
  | delete id =>
    simp only [Call.run, DeleteNote_db]
    exact PrimaryKey_execDelete hpk id

theorem PrimaryKey_runCalls {a : App} (hpk : PrimaryKey a.db) (cs : List Call) :
    PrimaryKey (runCalls a cs).db := by
  induction cs generalizing a with
  | nil => exact hpk
  | cons c cs ih => exact ih (PrimaryKey_step hpk c)

/-! ## Timestamps under a clock that never runs backwards -/

theorem created_le_updated_runCalls (cs : List Call) (a : App)
    (hinv : ∀ r ∈ a.db, r.created_at ≤ r.updated_at ∧ ∀ t ∈ clockReadings cs, r.created_at ≤ t)
    (hclk : (clockReadings cs).Pairwise (fun s t => s ≤ t)) :
    ∀ r ∈ (runCalls a cs).db, r.created_at ≤ r.updated_at := by
  induction cs generalizing a with
  | nil => exact fun r hr => (hinv r hr).1
  | cons c cs ih =>
    cases c with
    | create u now title content =>
      simp only [clockReadings, List.pairwise_cons, List.mem_cons, forall_eq_or_imp] at hinv hclk
      apply ih _ _ hclk.2
      intro r hr
      simp only [Call.run] at hr
      rcases CreateNote_db a u now title content with e | ⟨_, e⟩
      · rw [e] at hr
        exact ⟨(hinv r hr).1, (hinv r hr).2.2⟩
      · rw [e, List.mem_append, List.mem_singleton] at hr
        rcases hr with hr | rfl
        · exact ⟨(hinv r hr).1, (hinv r hr).2.2⟩
        · exact ⟨le_refl _, hclk.1⟩
    | update now id title content =>
      simp only [clockReadings, List.pairwise_cons, List.mem_cons, forall_eq_or_imp] at hinv hclk
      apply ih _ _ hclk.2
      intro r hr
      simp only [Call.run, UpdateNote_db] at hr
      rcases execUpdate_cases a.db title content now id with e | ⟨_, e⟩
      · rw [e] at hr
        exact ⟨(hinv r hr).1, (hinv r hr).2.2⟩
      · rw [e] at hr
        obtain ⟨x, hx, ⟨_, rfl⟩ | ⟨_, rfl⟩⟩ := updated_mem hr
        · exact ⟨(hinv r hx).1, (hinv r hx).2.2⟩
        · exact ⟨(hinv x hx).2.1, (hinv x hx).2.2⟩
    | delete id =>
      simp only [clockReadings] at hinv hclk
      apply ih _ _ hclk
      intro r hr
      simp only [Call.run, DeleteNote_db] at hr
      rcases execDelete_cases a.db id with e | ⟨_, e⟩
      · rw [e] at hr
        exact hinv r hr
      · rw [e] at hr
        exact hinv r (mem_deleted.mp hr).1

/-! ## The table refines the specification's store -/

theorem Refines_create {a : App} {m : SpecStore} (h : Refines a m) (u : UUID) (now : Int)
    (title content : String) (hf : ∀ r ∈ a.db, r.id ≠ u.String) :
    Refines (a.CreateNote u now title content).1 (m.apply (.create u now title content)) := by
  intro id n
  rw [(CreateNote_fresh hf now title content).1]
  simp only [SpecStore.apply]
  by_cases e : id = u.String
  · subst e
    rw [Function.update_same]
    constructor
    · intro hn
      refine ⟨_, List.mem_append_right _ (List.mem_singleton_self _), rfl, ?_⟩
      simpa [Row.toNote] using hn
    · rintro ⟨r, hr, hid, hn⟩
      rcases List.mem_append.mp hr with hr | hr
      · exact absurd hid (hf r hr)
      · rw [List.mem_singleton] at hr
        subst hr
        simpa [Row.toNote] using hn
  · rw [Function.update_noteq e, h id n]
    constructor
    · rintro ⟨r, hr, hid, hn⟩
      exact ⟨r, List.mem_append_left _ hr, hid, hn⟩
    · rintro ⟨r, hr, hid, hn⟩
      rcases List.mem_append.mp hr with hr | hr
      · exact ⟨r, hr, hid, hn⟩
      · rw [List.mem_singleton] at hr
        subst hr
        exact absurd hid.symm e

theorem Refines_update {a : App} {m : SpecStore} (hpk : PrimaryKey a.db) (h : Refines a m)
    (now : Int) (title content : String) {p : Row} (hp : p ∈ a.db)
    (hdb : (a.UpdateNote now p.id title content).1.db = updated a.db title content now p.id) :
    Refines (a.UpdateNote now p.id title content).1
      (m.apply (.update now p.id title content)) := by
  intro id n
  have hm : m p.id = some p.toNote := (h p.id p.toNote).mpr ⟨p, hp, rfl, rfl⟩
  simp only [SpecStore.apply, hm, hdb]
  by_cases e : id = p.id
  · subst e
    rw [Function.update_same]
    constructor
    · intro hn
      have := mem_updated_of_mem hp title content now p.id
      simp only [beq_self_eq_true, if_true] at this
      refine ⟨_, this, rfl, ?_⟩
      simpa [Row.toNote] using hn
    · rintro ⟨r, hr, hid, hn⟩
      obtain ⟨x, hx, ⟨hne, rfl⟩ | ⟨hxe, rfl⟩⟩ := updated_mem hr
      · exact absurd hid hne
      · have := PrimaryKey_unique hpk hx hp hxe
        subst this
        simpa [Row.toNote] using hn
  · rw [Function.update_noteq e, h id n]
    constructor
    · rintro ⟨r, hr, hid, hn⟩
      have := mem_updated_of_mem hr title content now p.id
      have hne : ¬ r.id = p.id := fun c => e (hid.symm.trans c)
      simp only [beq_iff_eq, hne, if_false] at this
      exact ⟨r, this, hid, hn⟩
    · rintro ⟨r, hr, hid, hn⟩
      obtain ⟨x, hx, ⟨_, rfl⟩ | ⟨hxe, rfl⟩⟩ := updated_mem hr
      · exact ⟨r, hx, hid, hn⟩
      · exact absurd (hid.symm.trans hxe) e

theorem Refines_delete {a : App} {m : SpecStore} (h : Refines a m) (i : String)
    (hdb : (a.DeleteNote i).1.db = deleted a.db i) :
    Refines (a.DeleteNote i).1 (m.apply (.delete i)) := by
  intro id n
  simp only [SpecStore.apply, hdb]
  by_cases e : id = i
  · subst e
    rw [Function.update_same]
    constructor
    · intro hn
      exact absurd hn (by simp)
    · rintro ⟨r, hr, hid, _⟩
      exact absurd hid (mem_deleted.mp hr).2
  · rw [Function.update_noteq e, h id n]
    constructor
    · rintro ⟨r, hr, hid, hn⟩
      exact ⟨r, mem_deleted.mpr ⟨hr, fun c => e (hid.symm.trans c)⟩, hid, hn⟩
    · rintro ⟨r, hr, hid, hn⟩
      exact ⟨r, (mem_deleted.mp hr).1, hid, hn⟩

theorem Refines_step {a : App} {m : SpecStore} (hpk : PrimaryKey a.db) (h : Refines a m)
    (c : Call) (hok : (c.run a).2 = none) : Refines (c.run a).1 (m.apply c) := by
  cases c with
  | create u now title content =>
    exact Refines_create h u now title content
      ((CreateNote_ok_iff a u now title content).mp hok)
  | update now id title content =>
    obtain ⟨⟨p, hp, rfl⟩, hdb⟩ := UpdateNote_ok a now id title content hok
    exact Refines_update hpk h now title content hp hdb
  | delete id =>
    exact Refines_delete h id (DeleteNote_present ((DeleteNote_ok_iff a id).mp hok)).1

theorem Refines_runCalls (cs : List Call) {a : App} {m : SpecStore} (hpk : PrimaryKey a.db)
    (h : Refines a m) (hok : allSucceed a cs = true) :
    Refines (runCalls a cs) (cs.foldl SpecStore.apply m) := by
  induction cs generalizing a m with
  | nil => exact h
  | cons c cs ih =>
    simp only [allSucceed, Bool.and_eq_true, Option.isNone_iff_eq_none] at hok
    exact ih (PrimaryKey_step hpk c) (Refines_step hpk h c hok.1) hok.2

/-! ## C1, C2: creating a note -/

/-- C1: when the insert succeeds, `CreateNote` returns the note with the given title and
content, the generated id (which is not empty) and both timestamps equal to the clock reading,
and the table gains exactly one row carrying those five values. -/
theorem C1_CreateNote_result (a : App) (u : UUID) (now : Int) (title content : String)
    (h : (a.CreateNote u now title content).2.2 = none) :
    (a.CreateNote u now title content).2.1 =
        { ID := u.String, Title := title, Content := content,
          CreatedAt := now, UpdatedAt := now } ∧
      (a.CreateNote u now title content).2.1.ID ≠ "" ∧
      (a.CreateNote u now title content).2.1.CreatedAt =
        (a.CreateNote u now title content).2.1.UpdatedAt ∧
      (a.CreateNote u now title content).1.db =
        a.db ++ [{ id := u.String, title := title, content := content,
                   created_at := now, updated_at := now }] := by
  have hf := (CreateNote_ok_iff a u now title content).mp h
  obtain ⟨e1, e2⟩ := CreateNote_fresh hf now title content
  rw [e2]
  exact ⟨rfl, UUID_String_ne_empty u, rfl, e1⟩

/-- C1 at a concrete input: creating a note in the one-note sample store. -/
theorem C1_CreateNote_result_witness :
    (sampleApp.CreateNote (sampleUUID 2) 200 "Groceries" "Milk, eggs").2.2 = none ∧
      (sampleApp.CreateNote (sampleUUID 2) 200 "Groceries" "Milk, eggs").2.1 =
        { ID := (sampleUUID 2).String, Title := "Groceries", Content := "Milk, eggs",
          CreatedAt := 200, UpdatedAt := 200 } :=
  have h : (sampleApp.CreateNote (sampleUUID 2) 200 "Groceries" "Milk, eggs").2.2 = none := by
    decide
  ⟨h, (C1_CreateNote_result sampleApp (sampleUUID 2) 200 "Groceries" "Milk, eggs" h).1⟩

/-- C2: a note that `CreateNote` returned is read back unchanged, in all five fields, by
`GetNote` on the resulting store. -/
theorem C2_create_then_get (a : App) (u : UUID) (now : Int) (title content : String)
    (h : (a.CreateNote u now title content).2.2 = none) :
    (a.CreateNote u now title content).1.GetNote (a.CreateNote u now title content).2.1.ID =
      ((a.CreateNote u now title content).2.1, none) := by
  have hf := (CreateNote_ok_iff a u now title content).mp h
  obtain ⟨e1, e2⟩ := CreateNote_fresh hf now title content
  have hl : lookup (a.CreateNote u now title content).1.db u.String =
      some { id := u.String, title := title, content := content,
             created_at := now, updated_at := now } := by
    rw [e1]
    exact lookup_append_fresh (t := a.db)
      (r := { id := u.String, title := title, content := content,
              created_at := now, updated_at := now }) hf
  have hid : tooBig u.String = false :=
    tooBig_stored (a := (a.CreateNote u now title content).1)
      (r := { id := u.String, title := title, content := content,
              created_at := now, updated_at := now })
      (by rw [e1]; exact List.mem_append_right _ (List.mem_singleton_self _))
  have hg := GetNote_of_some hid hl
  rw [e2]
  exact hg

/-- C2 at the scenario of the specification: `Create("Groceries", "Milk, eggs")` on the empty
store, then `Get(id)`. -/
theorem C2_create_then_get_witness :
    (App.empty.CreateNote (sampleUUID 7) 1700000000 "Groceries" "Milk, eggs").2.2 = none ∧
      (App.empty.CreateNote (sampleUUID 7) 1700000000 "Groceries" "Milk, eggs").1.GetNote
          (App.empty.CreateNote (sampleUUID 7) 1700000000 "Groceries" "Milk, eggs").2.1.ID =
        ({ ID := "00000000-0000-0000-0000-000000000007", Title := "Groceries",
           Content := "Milk, eggs", CreatedAt := 1700000000, UpdatedAt := 1700000000 }, none) :=
  have h : (App.empty.CreateNote (sampleUUID 7) 1700000000 "Groceries" "Milk, eggs").2.2
      = none := by decide
  ⟨h, (C2_create_then_get App.empty (sampleUUID 7) 1700000000 "Groceries" "Milk, eggs" h).trans
    (by decide)⟩

/-! ## C4: updating a note -/

/-- C4, as the specification states it, fails in two ways.  When the clock has moved
backwards, the note created at second 100 and updated at second 50 comes back with
`UpdatedAt = 50`, which is smaller than its `UpdatedAt` before the call.  And an update of
the stored note with a content of 1,000,000,001 bytes does not succeed: the engine refuses
to bind the text and `UpdateNote` returns the zero note with the wrapped error. -/
theorem C4_counterexample :
    runCalls App.empty [.create (sampleUUID 1) 100 "Old" "old text"] = sampleApp ∧
      PrimaryKey sampleApp.db ∧
      sampleApp.GetNote sampleId =
        ({ ID := sampleId, Title := "Old", Content := "old text",
           CreatedAt := 100, UpdatedAt := 100 }, none) ∧
      (sampleApp.UpdateNote 50 sampleId "New" "new text").2 =
        ({ ID := sampleId, Title := "New", Content := "new text",
           CreatedAt := 100, UpdatedAt := 50 }, none) ∧
      ¬ ((sampleApp.GetNote sampleId).1.UpdatedAt ≤
          (sampleApp.UpdateNote 50 sampleId "New" "new text").2.1.UpdatedAt) ∧
      sampleApp.UpdateNote 150 sampleId "New" bigText =
        (sampleApp, Note.zero,
          some (.wrapError "failed to update note: string or blob too big (18)" .tooBig)) :=
  ⟨by decide, by decide, by decide, by decide, by decide,
    UpdateNote_of_error (execUpdate_tooBig (Or.inr (Or.inl tooBig_bigText)) sampleApp.db 150)⟩

/-- C4, amended: for a store that holds a row `p`, and a title and content with which the
record of the updated row stays within the length limit of the engine,
`UpdateNote(p.id, title, content)` succeeds and returns the stored row as re-read after the
update, with the id and `CreatedAt` of `p`, the new title and content, and `UpdatedAt` equal
to the clock reading `now` of the call; `UpdatedAt` is therefore at least the previous
`UpdatedAt` whenever `now` is. -/
theorem C4_UpdateNote_result (a : App) (p : Row) (now : Int) (title content : String)
    (hpk : PrimaryKey a.db) (hp : p ∈ a.db)
    (hfit : recordSize { p with title := title, content := content, updated_at := now }
      ≤ SQLITE_MAX_LENGTH) :
    (a.UpdateNote now p.id title content).2 =
        ({ ID := p.id, Title := title, Content := content,
           CreatedAt := p.created_at, UpdatedAt := now }, none) ∧
      (a.UpdateNote now p.id title content).1.GetNote p.id =
        (a.UpdateNote now p.id title content).2 ∧
      (p.updated_at ≤ now →
        p.updated_at ≤ (a.UpdateNote now p.id title content).2.1.UpdatedAt) := by
  have hparts := parts_le_recordSize
    { p with title := title, content := content, updated_at := now }
  have hid : tooBig p.id = false := tooBig_stored hp
  have ht : tooBig title = false := tooBig_eq_false (le_trans hparts.2.1 hfit)
  have hc : tooBig content = false := tooBig_eq_false (le_trans hparts.2.2 hfit)
  have hok := execUpdate_ok a.db now ht hc hid (by
    intro x hx e
    rw [PrimaryKey_unique hpk hx hp e]
    exact hfit)
  have hq : lookup (updated a.db title content now p.id) p.id =
      some { p with title := title, content := content, updated_at := now } := by
    rw [lookup_updated_same, lookup_of_primaryKey hpk hp]; rfl
  have hres := UpdateNote_of_ok hid hok
  rw [if_neg (countP_id_pos ⟨p, hp, rfl⟩), hq] at hres
  have hg := GetNote_of_some (a := (a.UpdateNote now p.id title content).1) hid
    (by rw [UpdateNote_db, hok]; exact hq)
  refine ⟨hres, ?_, ?_⟩
  · rw [hg, hres]
  · intro h
    rw [hres]
    exact h

/-- C4 (amended) at a concrete input: the sample note updated at second 150. -/
theorem C4_UpdateNote_result_witness :
    (sampleApp.UpdateNote 150 sampleId "New" "new text").2 =
      ({ ID := sampleId, Title := "New", Content := "new text",
         CreatedAt := 100, UpdatedAt := 150 }, none) :=
  (C4_UpdateNote_result sampleApp
    { id := sampleId, title := "Old", content := "old text", created_at := 100,
      updated_at := 100 } 150 "New" "new text" (by decide) (by decide) (by decide)).1

/-! ## C5, C6: unknown ids and deletion -/

/-- C5, as the specification states it, fails when the engine rejects a bound value: for the
id `nope`, which the sample store does not hold, and a content of 1,000,000,001 bytes,
`UpdateNote` returns the wrapped persistence error, not the not-found error. -/
theorem C5_counterexample :
    (∀ r ∈ sampleApp.db, r.id ≠ "nope") ∧
      sampleApp.UpdateNote 150 "nope" "New" bigText =
        (sampleApp, Note.zero,
          some (.wrapError "failed to update note: string or blob too big (18)" .tooBig)) ∧
      sampleApp.UpdateNote 150 "nope" "New" bigText ≠
        (sampleApp, Note.zero,
          some (.errorString "note with ID nope not found for update")) :=
  have h : sampleApp.UpdateNote 150 "nope" "New" bigText =
      (sampleApp, Note.zero, some (Errorf_w "failed to update note: " .tooBig)) :=
    UpdateNote_of_error (execUpdate_tooBig (Or.inr (Or.inl tooBig_bigText)) sampleApp.db 150)
  ⟨by decide, h, by rw [h]; simp [Errorf_w]⟩

/-- C5, amended: for an id that no stored note has, the store after `UpdateNote` or
`DeleteNote` is the store before it (`GetNote` only reads); and when every string the call
binds (the id, and for `UpdateNote` the title and the content) has at most 1,000,000,000
bytes, `GetNote`, `UpdateNote` and `DeleteNote` each return their not-found error, a plain
message that wraps no database error, together with the zero value. -/
theorem C5_unknown_id (a : App) (id : String) (now : Int) (title content : String)
    (h : ∀ r ∈ a.db, r.id ≠ id) :
    (a.UpdateNote now id title content).1 = a ∧
      (a.DeleteNote id).1 = a ∧
      (id.utf8ByteSize ≤ SQLITE_MAX_LENGTH →
        a.GetNote id =
            (Note.zero, some (.errorString ("note with ID " ++ id ++ " not found"))) ∧
          a.DeleteNote id =
            (a, some (.errorString ("note with ID " ++ id ++ " not found for deletion"))) ∧
          (title.utf8ByteSize ≤ SQLITE_MAX_LENGTH → content.utf8ByteSize ≤ SQLITE_MAX_LENGTH →
            a.UpdateNote now id title content =
              (a, Note.zero,
                some (.errorString ("note with ID " ++ id ++ " not found for update"))))) := by
  refine ⟨UpdateNote_unknown_db h now title content, DeleteNote_unknown_db h, ?_⟩
  intro hid
  have hid2 := tooBig_eq_false hid
  exact ⟨GetNote_of_none hid2 (lookup_none h), DeleteNote_absent h hid2,
    fun ht hc => UpdateNote_absent h now (tooBig_eq_false ht) (tooBig_eq_false hc) hid2⟩

/-- C5 (amended) at a concrete input: the id `nope` in the sample store. -/
theorem C5_unknown_id_witness :
    sampleApp.GetNote "nope" =
        (Note.zero, some (.errorString "note with ID nope not found")) ∧
      sampleApp.UpdateNote 150 "nope" "New" "new text" =
        (sampleApp, Note.zero, some (.errorString "note with ID nope not found for update")) ∧
      sampleApp.DeleteNote "nope" =
        (sampleApp, some (.errorString "note with ID nope not found for deletion")) :=
  have h := (C5_unknown_id sampleApp "nope" 150 "New" "new text" (by decide)).2.2 (by decide)
  ⟨h.1, h.2.2 (by decide) (by decide), h.2.1⟩

/-- C6: deleting the id of a stored note succeeds; afterwards `GetNotes` succeeds and lists no
note with that id, and `GetNote` on that id returns the not-found error. -/
theorem C6_delete_then_read (a : App) (i : String) (h : ∃ r ∈ a.db, r.id = i) :
    (a.DeleteNote i).2 = none ∧
      (a.DeleteNote i).1.GetNotes.2 = none ∧
      (∀ n ∈ (a.DeleteNote i).1.GetNotes.1, n.ID ≠ i) ∧
      (a.DeleteNote i).1.GetNote i =
        (Note.zero, some (.errorString ("note with ID " ++ i ++ " not found"))) := by
  obtain ⟨hdb, hok⟩ := DeleteNote_present h
  have hid : tooBig i = false := by
    obtain ⟨r, hr, rfl⟩ := h
    exact tooBig_stored hr
  refine ⟨hok, by rw [GetNotes_eq], ?_,
    GetNote_of_none hid (by rw [hdb]; exact lookup_deleted_same a.db i)⟩
  intro n hn
  rw [GetNotes_eq, hdb] at hn
  obtain ⟨r, hr, rfl⟩ := List.mem_map.mp hn
  exact (mem_deleted.mp ((List.mem_insertionSort newerFirst).mp hr)).2

/-- C6 at a concrete input: deleting the only note of the sample store. -/
theorem C6_delete_then_read_witness :
    (sampleApp.DeleteNote sampleId).2 = none ∧
      (sampleApp.DeleteNote sampleId).1.GetNotes = ([], none) ∧
      (sampleApp.DeleteNote sampleId).1.GetNote sampleId =
        (Note.zero, some (.errorString ("note with ID " ++ sampleId ++ " not found"))) :=
  have h := C6_delete_then_read sampleApp sampleId (by decide)
  ⟨h.1, by decide, h.2.2.2⟩

/-! ## C10: frame conditions of update and delete -/

/-- C10: a successful `UpdateNote(i, ..)` or `DeleteNote(i)` leaves the rows with another id
as they were (the same rows in the same order), so `GetNote(j)` answers as before for every
`j` other than `i`; `UpdateNote` keeps the number of rows and `DeleteNote` lowers it by one. -/
theorem C10_frame (a : App) (i j : String) (now : Int) (title content : String)
    (hpk : PrimaryKey a.db) (hj : j ≠ i) :
    ((a.UpdateNote now i title content).2.2 = none →
        (a.UpdateNote now i title content).1.GetNote j = a.GetNote j ∧
        (a.UpdateNote now i title content).1.db.filter (fun r => !(r.id == i)) =
          a.db.filter (fun r => !(r.id == i)) ∧
        (a.UpdateNote now i title content).1.db.length = a.db.length) ∧
      ((a.DeleteNote i).2 = none →
        (a.DeleteNote i).1.GetNote j = a.GetNote j ∧
        (a.DeleteNote i).1.db.filter (fun r => !(r.id == i)) =
          a.db.filter (fun r => !(r.id == i)) ∧
        (a.DeleteNote i).1.db.length + 1 = a.db.length) := by
  constructor
  · intro h
    obtain ⟨_, hdb⟩ := UpdateNote_ok a now i title content h
    refine ⟨GetNote_congr (by rw [hdb]; exact lookup_updated_other a.db title content now hj),
      by rw [hdb]; exact updated_others a.db title content now i, ?_⟩
    rw [hdb]
    simp [updated]
  · intro h
    have hp := (DeleteNote_ok_iff a i).mp h
    have hdb := (DeleteNote_present hp).1
    refine ⟨GetNote_congr (by rw [hdb]; exact lookup_deleted_other a.db hj),
      by rw [hdb]; exact deleted_others a.db i, ?_⟩
    have := length_deleted a.db i
    rw [countP_id_of_primaryKey hpk hp] at this
    rw [hdb]
    exact this

/-- C10 at a concrete input: the two-note sample store, updating or deleting the first note
and reading the second. -/
theorem C10_frame_witness :
    (sampleApp2.UpdateNote 150 sampleId "New" "new text").1.GetNote sampleId2 =
        sampleApp2.GetNote sampleId2 ∧
      (sampleApp2.UpdateNote 150 sampleId "New" "new text").1.db.length = 2 ∧
      (sampleApp2.DeleteNote sampleId).1.GetNote sampleId2 = sampleApp2.GetNote sampleId2 ∧
      (sampleApp2.DeleteNote sampleId).1.db.length + 1 = 2 :=
  have h := C10_frame sampleApp2 sampleId sampleId2 150 "New" "new text" (by decide) (by decide)
  ⟨(h.1 (by decide)).1, (h.1 (by decide)).2.2, (h.2 (by decide)).1, (h.2 (by decide)).2.2⟩

/-! ## C7, C8: invariants of the reachable stores -/

/-- C7, as the specification states it, fails when the clock has moved backwards between a
create and an update: the stored note then has `created_at = 100` and `updated_at = 50`. -/
theorem C7_counterexample :
    (runCalls App.empty
        [.create (sampleUUID 1) 100 "Old" "old text",
         .update 50 sampleId "New" "new text"]).db =
      [{ id := sampleId, title := "New", content := "new text",
         created_at := 100, updated_at := 50 }] ∧
      ¬ ∀ r ∈ (runCalls App.empty
          [.create (sampleUUID 1) 100 "Old" "old text",
           .update 50 sampleId "New" "new text"]).db, r.created_at ≤ r.updated_at := by
  decide

/-- C7, amended: in every store reached from the empty store by a sequence of `CreateNote`,
`UpdateNote` and `DeleteNote` calls whose clock readings never decrease from one call to the
next, every stored note has `created_at ≤ updated_at`. -/
theorem C7_created_le_updated (cs : List Call)
    (hclk : (clockReadings cs).Pairwise (fun s t => s ≤ t)) :
    ∀ r ∈ (runCalls App.empty cs).db, r.created_at ≤ r.updated_at :=
  created_le_updated_runCalls cs App.empty (by simp [App.empty]) hclk

/-- C7 (amended) at a concrete input: create at second 100, update at second 150. -/
theorem C7_created_le_updated_witness :
    (runCalls App.empty
        [.create (sampleUUID 1) 100 "Old" "old text",
         .update 150 sampleId "New" "new text"]).db =
      [{ id := sampleId, title := "New", content := "new text",
         created_at := 100, updated_at := 150 }] ∧
      ∀ r ∈ (runCalls App.empty
          [.create (sampleUUID 1) 100 "Old" "old text",
           .update 150 sampleId "New" "new text"]).db, r.created_at ≤ r.updated_at :=
  ⟨by decide,
    C7_created_le_updated
      [.create (sampleUUID 1) 100 "Old" "old text", .update 150 sampleId "New" "new text"]
      (by decide)⟩

/-- C3: after any sequence of successful calls on the empty store, `GetNotes` succeeds and
returns each live note of the specification's store exactly once, with its current field
values, and nothing else; the result is ordered by `UpdatedAt` descending (pairwise, hence for
every adjacent pair).  Three notes created at strictly increasing seconds are listed in reverse
creation order. -/
theorem C3_GetNotes_lists_live_notes (cs : List Call) (hok : allSucceed App.empty cs = true)
    (u1 u2 u3 : UUID) (t1 t2 t3 : Int) (a1 b1 a2 b2 a3 b3 : String) :
    (runCalls App.empty cs).GetNotes.2 = none ∧
      ((runCalls App.empty cs).GetNotes.1.map Note.ID).Nodup ∧
      (∀ id n, specStore cs id = some n ↔ n ∈ (runCalls App.empty cs).GetNotes.1 ∧ n.ID = id) ∧
      (runCalls App.empty cs).GetNotes.1.Pairwise (fun x y => y.UpdatedAt ≤ x.UpdatedAt) ∧
      (runCalls App.empty cs).GetNotes.1.Chain' (fun x y => y.UpdatedAt ≤ x.UpdatedAt) ∧
      (allSucceed App.empty
          [.create u1 t1 a1 b1, .create u2 t2 a2 b2, .create u3 t3 a3 b3] = true →
        t1 < t2 → t2 < t3 →
        (runCalls App.empty
            [.create u1 t1 a1 b1, .create u2 t2 a2 b2, .create u3 t3 a3 b3]).GetNotes =
          ([{ ID := u3.String, Title := a3, Content := b3, CreatedAt := t3, UpdatedAt := t3 },
            { ID := u2.String, Title := a2, Content := b2, CreatedAt := t2, UpdatedAt := t2 },
            { ID := u1.String, Title := a1, Content := b1, CreatedAt := t1, UpdatedAt := t1 }],
           none)) := by
  have hpk : PrimaryKey (runCalls App.empty cs).db :=
    PrimaryKey_runCalls (by simp [App.empty, PrimaryKey]) cs
  have href : Refines (runCalls App.empty cs) (specStore cs) :=
    Refines_runCalls cs (by simp [App.empty, PrimaryKey]) (by intro id n; simp [App.empty]) hok
  have hsorted : ((runCalls App.empty cs).db.insertionSort newerFirst).Pairwise newerFirst :=
    List.sorted_insertionSort newerFirst _
  have hpair : (runCalls App.empty cs).GetNotes.1.Pairwise
      (fun x y => y.UpdatedAt ≤ x.UpdatedAt) := by
    rw [GetNotes_eq]
    exact List.pairwise_map.mpr hsorted
  refine ⟨by rw [GetNotes_eq], ?_, ?_, hpair, hpair.chain', ?_⟩
  · rw [GetNotes_eq]
    simp only [List.map_map]
    have : (Note.ID ∘ Row.toNote) = Row.id := rfl
    rw [this]
    exact ((List.perm_insertionSort newerFirst _).map Row.id).nodup_iff.mpr hpk
  · intro id n
    rw [href id n, GetNotes_eq]
    simp only [List.mem_map, List.mem_insertionSort]
    constructor
    · rintro ⟨r, hr, hid, hn⟩
      exact ⟨⟨r, hr, hn⟩, by rw [← hn]; exact hid⟩
    · rintro ⟨⟨r, hr, hn⟩, hid⟩
      exact ⟨r, hr, by rw [← hn] at hid; exact hid, hn⟩
  · intro h3 h12 h23
    simp only [allSucceed, Call.run, Bool.and_eq_true, Option.isNone_iff_eq_none,
      and_true] at h3
    obtain ⟨_, h2, h3⟩ := h3
    have f1 : ∀ r ∈ App.empty.db, r.id ≠ u1.String := by simp [App.empty]
    have e1 := (CreateNote_fresh f1 t1 a1 b1).1
    have f2 := (CreateNote_ok_iff _ u2 t2 a2 b2).mp h2
    have e2 := (CreateNote_fresh f2 t2 a2 b2).1
    have f3 := (CreateNote_ok_iff _ u3 t3 a3 b3).mp h3
    have e3 := (CreateNote_fresh f3 t3 a3 b3).1
    simp only [runCalls, Call.run]
    rw [GetNotes_eq, e3, e2, e1]
    have h13 : t1 < t3 := lt_trans h12 h23
    simp [App.empty, List.insertionSort, List.orderedInsert, newerFirst, Row.toNote,
      not_le.mpr h12, not_le.mpr h23, not_le.mpr h13, le_of_lt h23]

/-- C3 at a concrete input: two notes created at seconds 100 and 120, the first then updated
at second 150, so that it is listed first. -/
theorem C3_GetNotes_lists_live_notes_witness :
    (runCalls App.empty
        [.create (sampleUUID 1) 100 "Old" "old text", .create (sampleUUID 2) 120 "Second" "",
         .update 150 sampleId "New" "new text"]).GetNotes =
      ([{ ID := sampleId, Title := "New", Content := "new text",
          CreatedAt := 100, UpdatedAt := 150 },
        { ID := sampleId2, Title := "Second", Content := "", CreatedAt := 120, UpdatedAt := 120 }],
       none) ∧
      (runCalls App.empty
        [.create (sampleUUID 1) 100 "Old" "old text", .create (sampleUUID 2) 120 "Second" "",
         .update 150 sampleId "New" "new text"]).GetNotes.1.Chain'
        (fun x y => y.UpdatedAt ≤ x.UpdatedAt) ∧
      (runCalls App.empty
        [.create (sampleUUID 1) 30 "one" "1", .create (sampleUUID 2) 31 "two" "2",
         .create (sampleUUID 3) 32 "three" "3"]).GetNotes.1.map Note.Title =
        ["three", "two", "one"] :=
  have h := C3_GetNotes_lists_live_notes
    [.create (sampleUUID 1) 100 "Old" "old text", .create (sampleUUID 2) 120 "Second" "",
     .update 150 sampleId "New" "new text"] (by decide)
    (sampleUUID 1) (sampleUUID 2) (sampleUUID 3) 30 31 32 "one" "1" "two" "2" "three" "3"
  ⟨by decide, h.2.2.2.2.1,
    by rw [h.2.2.2.2.2 (by decide) (by decide) (by decide)]; rfl⟩

/-! ## C9: the application data directory -/

/-- C9: `GetApplicationDataDir(appName)` joins the base directory of the OS with `appName`.
The base is `APPDATA` on windows (an error and the empty path when it is unset or empty),
`Join(home, "Library", "Application Support")` on darwin, `XDG_DATA_HOME` on linux when it is
not empty and `Join(home, ".local", "share")` otherwise, and the home directory on any other
OS; whenever the home directory is needed and `os.UserHomeDir` fails, that error is returned
with the empty path. -/
theorem C9_GetApplicationDataDir (p : Platform) (appName : String) :
    (p.GOOS = "windows" → p.environ "APPDATA" = none ∨ p.environ "APPDATA" = some "" →
        GetApplicationDataDir p appName =
          ("", some (.errorString "APPDATA environment variable not set"))) ∧
      (p.GOOS = "windows" → ∀ dir, p.environ "APPDATA" = some dir → dir ≠ "" →
        GetApplicationDataDir p appName = (p.Join [dir, appName], none)) ∧
      (p.GOOS = "darwin" → ∀ home, p.UserHomeDir = (home, none) →
        GetApplicationDataDir p appName =
          (p.Join [p.Join [home, "Library", "Application Support"], appName], none)) ∧
      (p.GOOS = "linux" → ∀ dir, p.environ "XDG_DATA_HOME" = some dir → dir ≠ "" →
        GetApplicationDataDir p appName = (p.Join [dir, appName], none)) ∧
      (p.GOOS = "linux" →
        p.environ "XDG_DATA_HOME" = none ∨ p.environ "XDG_DATA_HOME" = some "" →
        ∀ home, p.UserHomeDir = (home, none) →
        GetApplicationDataDir p appName =
          (p.Join [p.Join [home, ".local", "share"], appName], none)) ∧
      (p.GOOS ≠ "windows" → p.GOOS ≠ "darwin" → p.GOOS ≠ "linux" →
        ∀ home, p.UserHomeDir = (home, none) →
        GetApplicationDataDir p appName = (p.Join [home, appName], none)) ∧
      (p.GOOS ≠ "windows" →
        ¬ (p.GOOS = "linux" ∧ ∃ dir, p.environ "XDG_DATA_HOME" = some dir ∧ dir ≠ "") →
        ∀ home err, p.UserHomeDir = (home, some err) →
        GetApplicationDataDir p appName = ("", some err)) := by
  refine ⟨?_, ?_, ?_, ?_, ?_, ?_, ?_⟩
  · rintro hos (h | h) <;> simp [GetApplicationDataDir, Platform.Getenv, hos, h]
  · intro hos dir h hne
    simp [GetApplicationDataDir, Platform.Getenv, hos, h, hne]
  · intro hos home h
    simp [GetApplicationDataDir, hos, h]
  · intro hos dir h hne
    simp [GetApplicationDataDir, Platform.Getenv, hos, h, hne]
  · rintro hos (h | h) home hh <;> simp [GetApplicationDataDir, Platform.Getenv, hos, h, hh]
  · intro h1 h2 h3 home hh
    simp [GetApplicationDataDir, h1, h2, h3, hh]
  · intro h1 hx home err hh
    by_cases h2 : p.GOOS = "darwin"
    · simp [GetApplicationDataDir, h2, hh]
    · by_cases h3 : p.GOOS = "linux"
      · have hd : p.Getenv "XDG_DATA_HOME" = "" := by
          unfold Platform.Getenv
          cases e : p.environ "XDG_DATA_HOME" with
          | none => rfl
          | some dir =>
            by_contra hne
            exact hx ⟨h3, dir, e, by simpa using hne⟩
        simp [GetApplicationDataDir, h3, hd, hh]
      · simp [GetApplicationDataDir, h1, h2, h3, hh]

/-- C9 at a concrete input: Linux without `XDG_DATA_HOME`, home directory `/home/u`. -/
theorem C9_GetApplicationDataDir_witness :
    GetApplicationDataDir sampleLinux "NoteApp" = ("/home/u/.local/share/NoteApp", none) :=
  ((C9_GetApplicationDataDir sampleLinux "NoteApp").2.2.2.2.1 rfl (Or.inl rfl)
    "/home/u" rfl).trans (by decide)

end NoteApp
